import Mathlib

/-!
Shallow embedding of the batch ingestion pipeline of
`src/json_to_mongo.py` (class `MongoDBDataLoader`): two-tier batch
resolution over an object store, JSON object enumeration, decode, and
duplicate-aware insertion into a collection carrying a unique index on
the identifier field.
-/

namespace JsonToMongo

/-- Characterwise test that `p` begins `s`; models Python `str.startswith`
and the object-store `Prefix=` filter of `s3_bucket.objects.filter`. -/
def strStarts (p s : String) : Bool := p.data.isPrefixOf s.data

/-- Characterwise test that `p` ends `s`; models Python `str.endswith`. -/
def strEnds (p s : String) : Bool := p.data.isSuffixOf s.data

/-- Models `os.path.join(root, name)` on a storage root and a batch name. -/
def joinPath (root name : String) : String := root ++ "/" ++ name

/-- A decoded JSON record: a mapping from field names to opaque values. -/
structure Record where
  fields : List (String × String)
deriving DecidableEq

/-- Models Python `dict.get(k)`: the value at key `k`, if present. -/
def Record.get (r : Record) (k : String) : Option String :=
  (r.fields.find? (fun p => p.1 == k)).map (fun p => p.2)

/-- Field selection in `create_id_index`:
`"cutout_id" if data_type == 'cutouts' else "image_id"`. -/
def index_value (data_type : String) : String :=
  if data_type == "cutouts" then "cutout_id" else "image_id"

/-- `__init__` calls `create_id_index("cutouts")`, so the indexed
identifier field of this pipeline is `cutout_id`. -/
def idField : String := index_value "cutouts"

/-- The identifier value of a record; an absent field behaves like the
store's null (so at most one record without the field can persist). -/
def idOf (r : Record) : Option String := r.get idField

/-- The decoded content of one stored object: `json.loads` of its bytes
either fails (`malformed`: invalid UTF-8 or invalid JSON), or yields a
single mapping, or a list of mappings. -/
inductive Body
  | malformed
  | single (r : Record)
  | many (rs : List Record)
deriving DecidableEq

/-- The object store: a finite association of object keys to decoded
bodies, in store-native listing order. -/
structure Bucket where
  objects : List (String × Body)
deriving DecidableEq

def Bucket.keys (b : Bucket) : List String := b.objects.map (fun p => p.1)

/-- Models `s3_bucket.Object(key).get()['Body'].read()` followed by
decoding: `none` when the key is absent at fetch time. -/
def Bucket.fetch (b : Bucket) (k : String) : Option Body :=
  (b.objects.find? (fun p => p.1 == k)).map (fun p => p.2)

/-- `MongoDBDataLoader.s3_folder_exists`: append `/` unless already
present, then probe for at least one object under the prefix. -/
def s3_folder_exists (b : Bucket) (folder_key : String) : Bool :=
  let fk := if strEnds "/" folder_key then folder_key else folder_key ++ "/"
  b.keys.any (fun k => strStarts fk k)

/-- The collection: the persisted records, in insertion order. -/
structure Collection where
  docs : List Record
deriving DecidableEq

/-- The identifier values currently persisted. -/
def Collection.ids (c : Collection) : List (Option String) := c.docs.map idOf

/-- What `collection.insert_one` reports for one attempt. -/
inductive InsertRes
  | ok
  | dupErr
  | otherErr
deriving DecidableEq

/-- Model of `collection.insert_one` under the unique index on `idField`:
`DuplicateKeyError` exactly when the document's identifier value is
already present; `errs` marks the records on which the store raises some
error other than `DuplicateKeyError` (the environment's choice). -/
def insert_one (errs : Record → Bool) (c : Collection) (r : Record) :
    Collection × InsertRes :=
  if errs r then (c, .otherErr)
  else if idOf r ∈ c.ids then (c, .dupErr)
  else (⟨c.docs ++ [r]⟩, .ok)

/-- The store environment in which `insert_one` reports
`DuplicateKeyError` exactly when the identifier is already present and
never raises any other error. -/
def noErrs : Record → Bool := fun _ => false

/-- Outcome of one insert attempt as the loop in `insert_data_from_file`
records it: inserted, skipped on `DuplicateKeyError` (with the logged
identifier-or-placeholder), or failed with a non-duplicate store error. -/
inductive AttemptResult
  | inserted
  | dupSkipped (loggedId : String)
  | storeFailed
deriving DecidableEq

abbrev Attempt := Record × AttemptResult

def isStoreFailed : AttemptResult → Bool
  | .storeFailed => true
  | _ => false

/-- The list branch of `insert_data_from_file`: `for item in data:` with an
inner `try` that catches only `DuplicateKeyError` (logging
`item.get('cutout_id', 'unknown')`); any other store error escapes the
loop, so iteration stops at the failing element. -/
def insertList (errs : Record → Bool) (c : Collection) :
    List Record → Collection × List Attempt
  | [] => (c, [])
  | r :: rs =>
    match insert_one errs c r with
    | (c', InsertRes.ok) =>
      let rest := insertList errs c' rs
      (rest.1, (r, .inserted) :: rest.2)
    | (c', InsertRes.dupErr) =>
      let rest := insertList errs c' rs
      (rest.1, (r, .dupSkipped ((r.get idField).getD "unknown")) :: rest.2)
    | (c', InsertRes.otherErr) => (c', [(r, .storeFailed)])

/-- Per-object report: the insert attempts made for the object, and
whether the object-scope `except Exception` handler fired (fetch failure,
decode failure, or a non-duplicate store error escaping the loop). -/
structure FileReport where
  key : String
  attempts : List Attempt
  fileError : Bool
deriving DecidableEq

/-- `MongoDBDataLoader.insert_data_from_file`: fetch and decode the
object, then insert its record (or each element of its record list);
every exception other than the caught `DuplicateKeyError` is absorbed at
this scope and logged. -/
def insert_data_from_file (errs : Record → Bool) (b : Bucket)
    (c : Collection) (key : String) : Collection × FileReport :=
  match b.fetch key with
  | none => (c, ⟨key, [], true⟩)
  | some Body.malformed => (c, ⟨key, [], true⟩)
  | some (Body.single r) =>
    match insert_one errs c r with
    | (c', InsertRes.ok) => (c', ⟨key, [(r, .inserted)], false⟩)
    | (c', InsertRes.dupErr) =>
      (c', ⟨key, [(r, .dupSkipped ((r.get idField).getD "unknown"))], false⟩)
    | (c', InsertRes.otherErr) => (c', ⟨key, [(r, .storeFailed)], true⟩)
  | some (Body.many rs) =>
    let p := insertList errs c rs
    (p.1, ⟨key, p.2, p.2.any (fun a => isStoreFailed a.2)⟩)

/-- The records an object expands to (empty when fetch or decode fails). -/
def fileRecords (b : Bucket) (k : String) : List Record :=
  match b.fetch k with
  | none => []
  | some Body.malformed => []
  | some (Body.single r) => [r]
  | some (Body.many rs) => rs

/-- The inner file loop of `load_json_files_from_batches`:
`for json_file_path in json_files: self.insert_data_from_file(...)`. -/
def processFiles (errs : Record → Bool) (b : Bucket) (c : Collection) :
    List String → Collection × List FileReport
  | [] => (c, [])
  | k :: ks =>
    let p := insert_data_from_file errs b c k
    let rest := processFiles errs b p.1 ks
    (rest.1, p.2 :: rest.2)

/-- How one batch name resolved. -/
inductive Resolution
  | primary
  | secondary
  | notFound
deriving DecidableEq

structure BatchReport where
  name : String
  resolved : Resolution
  files : List FileReport
deriving DecidableEq

/-- The configuration consumed by the loader: the two storage roots and
the ordered batch list. -/
structure Config where
  primary_s3_root : String
  secondary_s3_root : String
  batches : List String
deriving DecidableEq

/-- The enumeration inside `load_json_files_from_batches`:
`for obj in s3_bucket.objects.filter(Prefix=batch_dir): if
obj.key.endswith('.json'): json_files.append(obj.key)`. Note the raw
`batch_dir` carries no trailing separator here. -/
def listJson (b : Bucket) (dir : String) : List String :=
  b.keys.filter (fun k => strStarts dir k && strEnds ".json" k)

/-- The two-tier resolution of `load_json_files_from_batches`: probe the
primary root, then the secondary root, else warn and skip. -/
def resolutionOf (b : Bucket) (cfg : Config) (name : String) : Resolution :=
  if s3_folder_exists b (joinPath cfg.primary_s3_root name) then .primary
  else if s3_folder_exists b (joinPath cfg.secondary_s3_root name) then .secondary
  else .notFound

/-- The JSON object keys the resolved batch enumerates (empty when the
batch is found under neither root). -/
def batchFiles (b : Bucket) (cfg : Config) (name : String) : List String :=
  if s3_folder_exists b (joinPath cfg.primary_s3_root name) then
    listJson b (joinPath cfg.primary_s3_root name)
  else if s3_folder_exists b (joinPath cfg.secondary_s3_root name) then
    listJson b (joinPath cfg.secondary_s3_root name)
  else []

/-- One iteration of the batch loop of `load_json_files_from_batches`:
resolve the batch, enumerate its JSON objects, ingest each in order; on
`notFound` a warning is logged and the batch contributes nothing. -/
def processBatch (errs : Record → Bool) (b : Bucket) (cfg : Config)
    (c : Collection) (name : String) : Collection × BatchReport :=
  let p := processFiles errs b c (batchFiles b cfg name)
  (p.1, ⟨name, resolutionOf b cfg name, p.2⟩)

/-- `MongoDBDataLoader.load_json_files_from_batches`: the batch loop. -/
def load_json_files_from_batches (errs : Record → Bool) (b : Bucket)
    (cfg : Config) (c : Collection) :
    List String → Collection × List BatchReport
  | [] => (c, [])
  | n :: ns =>
    let p := processBatch errs b cfg c n
    let rest := load_json_files_from_batches errs b cfg p.1 ns
    (rest.1, p.2 :: rest.2)

/-- All insert attempts of a run, in order. -/
def allAttempts (reps : List BatchReport) : List Attempt :=
  (reps.map (fun br => (br.files.map (fun fr => fr.attempts)).flatten)).flatten

/-- A sequence of whole-pipeline ingestions (each over its own bucket
contents and batch list) against the same collection, in the environment
where the store reports `DuplicateKeyError` exactly on present
identifiers. -/
def runSeq (ings : List (Bucket × Config)) (c : Collection) : Collection :=
  ings.foldl
    (fun c bi => (load_json_files_from_batches noErrs bi.1 bi.2 c bi.2.batches).1) c

/-- Result of `main`: `create_id_index` runs inside `__init__`, before
any batch work; on index-creation failure the code calls `exit()`. -/
inductive RunResult
  | fatal
  | completed (c : Collection) (reports : List BatchReport)
deriving DecidableEq

/-- `main(cfg)`: construct the loader (which creates the unique index,
exiting the process on failure), then run the batch loop. `indexOk`
is the store's verdict on `create_index`. -/
def mainRun (indexOk : Bool) (errs : Record → Bool) (b : Bucket)
    (cfg : Config) (c : Collection) : RunResult :=
  if indexOk then
    let p := load_json_files_from_batches errs b cfg c cfg.batches
    .completed p.1 p.2
  else .fatal

/-- Observable events of one `main` invocation, in program order. -/
inductive Ev
  | createIndex (field : String)
  | resolveBatch (name : String)
  | insertAttempt (r : Record)
deriving DecidableEq

def isCreateIndexEv : Ev → Bool
  | .createIndex _ => true
  | _ => false

def isInsertAttemptEv : Ev → Bool
  | .insertAttempt _ => true
  | _ => false

def batchEvents (br : BatchReport) : List Ev :=
  Ev.resolveBatch br.name ::
    ((br.files.map (fun fr => fr.attempts)).flatten.map (fun a => Ev.insertAttempt a.1))

/-- The event trace of `main`: the index is created first (inside
`__init__`); if that fails the process exits and nothing else happens. -/
def mainTrace (indexOk : Bool) (errs : Record → Bool) (b : Bucket)
    (cfg : Config) (c : Collection) : List Ev :=
  Ev.createIndex (index_value "cutouts") ::
    (if indexOk then
      ((load_json_files_from_batches errs b cfg c cfg.batches).2.map batchEvents).flatten
    else [])

/-! ### Basic rewrite lemmas for the insertion loop -/

theorem insert_one_err (errs : Record → Bool) (c : Collection) (r : Record)
    (h : errs r = true) : insert_one errs c r = (c, .otherErr) := by
  simp [insert_one, h]

theorem insert_one_dup (errs : Record → Bool) (c : Collection) (r : Record)
    (h : errs r = false) (hd : idOf r ∈ c.ids) :
    insert_one errs c r = (c, .dupErr) := by
  simp [insert_one, h, hd]

theorem insert_one_new (errs : Record → Bool) (c : Collection) (r : Record)
    (h : errs r = false) (hd : idOf r ∉ c.ids) :
    insert_one errs c r = (⟨c.docs ++ [r]⟩, .ok) := by
  simp [insert_one, h, hd]

theorem insertList_nil (errs : Record → Bool) (c : Collection) :
    insertList errs c [] = (c, []) := rfl

theorem insertList_cons_err (errs : Record → Bool) (c : Collection)
    (r : Record) (rs : List Record) (h : errs r = true) :
    insertList errs c (r :: rs) = (c, [(r, .storeFailed)]) := by
  simp [insertList, insert_one_err errs c r h]

theorem insertList_cons_dup (errs : Record → Bool) (c : Collection)
    (r : Record) (rs : List Record) (h : errs r = false) (hd : idOf r ∈ c.ids) :
    insertList errs c (r :: rs) =
      ((insertList errs c rs).1,
        (r, .dupSkipped ((r.get idField).getD "unknown")) :: (insertList errs c rs).2) := by
  simp [insertList, insert_one_dup errs c r h hd]

theorem insertList_cons_new (errs : Record → Bool) (c : Collection)
    (r : Record) (rs : List Record) (h : errs r = false) (hd : idOf r ∉ c.ids) :
    insertList errs c (r :: rs) =
      ((insertList errs ⟨c.docs ++ [r]⟩ rs).1,
        (r, .inserted) :: (insertList errs ⟨c.docs ++ [r]⟩ rs).2) := by
  simp [insertList, insert_one_new errs c r h hd]

/-! ### The collection only grows -/

theorem insert_one_docs_grow (errs : Record → Bool) (c : Collection) (r : Record) :
    c.docs <+: (insert_one errs c r).1.docs := by
  cases he : errs r with
  | true =>
    rw [insert_one_err errs c r he]
  | false =>
    by_cases hd : idOf r ∈ c.ids
    · rw [insert_one_dup errs c r he hd]
    · rw [insert_one_new errs c r he hd]
      exact List.prefix_append _ _

theorem ids_mem_of_docs_grow {c d : Collection} (h : c.docs <+: d.docs)
    {x : Option String} (hx : x ∈ c.ids) : x ∈ d.ids := by
  unfold Collection.ids at *
  exact (h.sublist.map idOf).subset hx

theorem insertList_docs_grow (errs : Record → Bool) (rs : List Record) :
    ∀ c : Collection, c.docs <+: (insertList errs c rs).1.docs := by
  induction rs with
  | nil => intro c; exact List.prefix_rfl
  | cons r rs ih =>
    intro c
    cases he : errs r with
    | true =>
      rw [insertList_cons_err errs c r rs he]
    | false =>
      by_cases hd : idOf r ∈ c.ids
      · rw [insertList_cons_dup errs c r rs he hd]
        exact ih c
      · rw [insertList_cons_new errs c r rs he hd]
        exact (List.prefix_append c.docs [r]).trans (ih ⟨c.docs ++ [r]⟩)

theorem insert_data_from_file_docs_grow (errs : Record → Bool) (b : Bucket)
    (c : Collection) (key : String) :
    c.docs <+: (insert_data_from_file errs b c key).1.docs := by
  unfold insert_data_from_file
  cases hf : b.fetch key with
  | none => exact List.prefix_rfl
  | some body =>
    cases body with
    | malformed => exact List.prefix_rfl
    | single r =>
      have hg := insert_one_docs_grow errs c r
      cases hio : insert_one errs c r with
      | mk c2 res =>
        rw [hio] at hg
        simp only [hio]
        cases res <;> simpa using hg
    | many rs => simpa using insertList_docs_grow errs rs c

theorem processFiles_docs_grow (errs : Record → Bool) (b : Bucket)
    (ks : List String) : ∀ c : Collection,
    c.docs <+: (processFiles errs b c ks).1.docs := by
  induction ks with
  | nil => intro c; exact List.prefix_rfl
  | cons k ks ih =>
    intro c
    exact (insert_data_from_file_docs_grow errs b c k).trans
      (ih (insert_data_from_file errs b c k).1)

theorem processBatch_docs_grow (errs : Record → Bool) (b : Bucket)
    (cfg : Config) (c : Collection) (name : String) :
    c.docs <+: (processBatch errs b cfg c name).1.docs :=
  processFiles_docs_grow errs b (batchFiles b cfg name) c

theorem load_docs_grow (errs : Record → Bool) (b : Bucket) (cfg : Config)
    (ns : List String) : ∀ c : Collection,
    c.docs <+: (load_json_files_from_batches errs b cfg c ns).1.docs := by
  induction ns with
  | nil => intro c; exact List.prefix_rfl
  | cons n ns ih =>
    intro c
    exact (processBatch_docs_grow errs b cfg c n).trans
      (ih (processBatch errs b cfg c n).1)

/-! ### Uniqueness of persisted identifiers is preserved -/

theorem insert_one_ids_nodup (errs : Record → Bool) (c : Collection) (r : Record)
    (h : c.ids.Nodup) : (insert_one errs c r).1.ids.Nodup := by
  cases he : errs r with
  | true => rw [insert_one_err errs c r he]; exact h
  | false =>
    by_cases hd : idOf r ∈ c.ids
    · rw [insert_one_dup errs c r he hd]; exact h
    · rw [insert_one_new errs c r he hd]
      unfold Collection.ids at *
      rw [List.map_append]
      refine List.Nodup.append h (List.nodup_singleton _) ?_
      intro x hx hx'
      rcases List.mem_singleton.mp hx' with rfl
      exact hd hx

theorem insertList_ids_nodup (errs : Record → Bool) (rs : List Record) :
    ∀ c : Collection, c.ids.Nodup → (insertList errs c rs).1.ids.Nodup := by
  induction rs with
  | nil => intro c h; exact h
  | cons r rs ih =>
    intro c h
    cases he : errs r with
    | true => rw [insertList_cons_err errs c r rs he]; exact h
    | false =>
      by_cases hd : idOf r ∈ c.ids
      · rw [insertList_cons_dup errs c r rs he hd]
        exact ih c h
      · rw [insertList_cons_new errs c r rs he hd]
        have : (insert_one errs c r).1.ids.Nodup := insert_one_ids_nodup errs c r h
        rw [insert_one_new errs c r he hd] at this
        exact ih _ this

theorem insert_data_from_file_ids_nodup (errs : Record → Bool) (b : Bucket)
    (c : Collection) (key : String) (h : c.ids.Nodup) :
    (insert_data_from_file errs b c key).1.ids.Nodup := by
  unfold insert_data_from_file
  cases hf : b.fetch key with
  | none => exact h
  | some body =>
    cases body with
    | malformed => exact h
    | single r =>
      have hn := insert_one_ids_nodup errs c r h
      cases hio : insert_one errs c r with
      | mk c2 res =>
        rw [hio] at hn
        simp only [hio]
        cases res <;> simpa using hn
    | many rs => simpa using insertList_ids_nodup errs rs c h

theorem processFiles_ids_nodup (errs : Record → Bool) (b : Bucket)
    (ks : List String) : ∀ c : Collection, c.ids.Nodup →
    (processFiles errs b c ks).1.ids.Nodup := by
  induction ks with
  | nil => intro c h; exact h
  | cons k ks ih =>
    intro c h
    exact ih _ (insert_data_from_file_ids_nodup errs b c k h)

theorem load_ids_nodup (errs : Record → Bool) (b : Bucket) (cfg : Config)
    (ns : List String) : ∀ c : Collection, c.ids.Nodup →
    (load_json_files_from_batches errs b cfg c ns).1.ids.Nodup := by
  induction ns with
  | nil => intro c h; exact h
  | cons n ns ih =>
    intro c h
    exact ih _ (processFiles_ids_nodup errs b (batchFiles b cfg n) c h)

theorem runSeq_ids_nodup (ings : List (Bucket × Config)) :
    ∀ c : Collection, c.ids.Nodup → (runSeq ings c).ids.Nodup := by
  induction ings with
  | nil => intro c h; exact h
  | cons bi ings ih =>
    intro c h
    exact ih _ (load_ids_nodup noErrs bi.1 bi.2 bi.2.batches c h)

/-! ### The insertion loop without non-duplicate errors -/

theorem insertList_attempt_records (errs : Record → Bool) (rs : List Record) :
    ∀ c : Collection, (∀ x ∈ rs, errs x = false) →
    ((insertList errs c rs).2).map Prod.fst = rs := by
  induction rs with
  | nil => intro c _; rfl
  | cons r rs ih =>
    intro c hfree
    have he : errs r = false := hfree r (List.mem_cons_self r rs)
    have htail : ∀ x ∈ rs, errs x = false :=
      fun x hx => hfree x (List.mem_cons_of_mem r hx)
    by_cases hd : idOf r ∈ c.ids
    · rw [insertList_cons_dup errs c r rs he hd]
      simp only [List.map_cons]
      rw [ih c htail]
    · rw [insertList_cons_new errs c r rs he hd]
      simp only [List.map_cons]
      rw [ih _ htail]

theorem insertList_covers (errs : Record → Bool) (rs : List Record) :
    ∀ c : Collection, (∀ x ∈ rs, errs x = false) →
    ∀ r ∈ rs, idOf r ∈ (insertList errs c rs).1.ids := by
  induction rs with
  | nil => intro c _ r hr; cases hr
  | cons a rs ih =>
    intro c hfree r hr
    have ha : errs a = false := hfree a (List.mem_cons_self a rs)
    have htail : ∀ x ∈ rs, errs x = false :=
      fun x hx => hfree x (List.mem_cons_of_mem a hx)
    by_cases hd : idOf a ∈ c.ids
    · rw [insertList_cons_dup errs c a rs ha hd]
      rcases List.mem_cons.mp hr with h | h
      · subst h
        exact ids_mem_of_docs_grow (insertList_docs_grow errs rs c) hd
      · exact ih c htail r h
    · rw [insertList_cons_new errs c a rs ha hd]
      rcases List.mem_cons.mp hr with h | h
      · subst h
        have hmem : idOf r ∈ (⟨c.docs ++ [r]⟩ : Collection).ids := by
          unfold Collection.ids
          simp
        exact ids_mem_of_docs_grow (insertList_docs_grow errs rs _) hmem
      · exact ih _ htail r h

theorem insertList_all_dup (errs : Record → Bool) (rs : List Record) :
    ∀ c : Collection, (∀ x ∈ rs, errs x = false) →
    (∀ x ∈ rs, idOf x ∈ c.ids) →
    insertList errs c rs =
      (c, rs.map (fun r => (r, AttemptResult.dupSkipped ((r.get idField).getD "unknown")))) := by
  induction rs with
  | nil => intro c _ _; rfl
  | cons a rs ih =>
    intro c hfree hdup
    have ha := hfree a (List.mem_cons_self a rs)
    have hda := hdup a (List.mem_cons_self a rs)
    rw [insertList_cons_dup errs c a rs ha hda,
      ih c (fun x hx => hfree x (List.mem_cons_of_mem a hx))
        (fun x hx => hdup x (List.mem_cons_of_mem a hx))]
    simp

/-! ### The insertion loop stops at the first non-duplicate store error -/

theorem insertList_stop (errs : Record → Bool) (r : Record) (rs' : List Record)
    (hr : errs r = true) : ∀ (c : Collection) (rs : List Record),
    (∀ x ∈ rs, errs x = false) →
    insertList errs c (rs ++ r :: rs') =
      ((insertList errs c rs).1, (insertList errs c rs).2 ++ [(r, .storeFailed)]) := by
  intro c rs
  induction rs generalizing c with
  | nil =>
    intro _
    simp [insertList_nil, insertList_cons_err errs c r rs' hr]
  | cons a t ih =>
    intro hfree
    have ha : errs a = false := hfree a (List.mem_cons_self a t)
    have htail : ∀ x ∈ t, errs x = false :=
      fun x hx => hfree x (List.mem_cons_of_mem a hx)
    by_cases hd : idOf a ∈ c.ids
    · rw [List.cons_append, insertList_cons_dup errs c a (t ++ r :: rs') ha hd,
        insertList_cons_dup errs c a t ha hd, ih c htail]
      simp
    · rw [List.cons_append, insertList_cons_new errs c a (t ++ r :: rs') ha hd,
        insertList_cons_new errs c a t ha hd, ih _ htail]
      simp

/-! ### Per-object behavior of insert_data_from_file -/

theorem insert_data_from_file_none (errs : Record → Bool) (b : Bucket)
    (c : Collection) (key : String) (h : b.fetch key = none) :
    insert_data_from_file errs b c key = (c, ⟨key, [], true⟩) := by
  simp [insert_data_from_file, h]

theorem insert_data_from_file_malformed (errs : Record → Bool) (b : Bucket)
    (c : Collection) (key : String) (h : b.fetch key = some Body.malformed) :
    insert_data_from_file errs b c key = (c, ⟨key, [], true⟩) := by
  simp [insert_data_from_file, h]

theorem insert_data_from_file_many (errs : Record → Bool) (b : Bucket)
    (c : Collection) (key : String) (rs : List Record)
    (h : b.fetch key = some (Body.many rs)) :
    insert_data_from_file errs b c key =
      ((insertList errs c rs).1,
        ⟨key, (insertList errs c rs).2,
          (insertList errs c rs).2.any (fun a => isStoreFailed a.2)⟩) := by
  simp [insert_data_from_file, h]

theorem insert_data_from_file_single_err (errs : Record → Bool) (b : Bucket)
    (c : Collection) (key : String) (r : Record)
    (h : b.fetch key = some (Body.single r)) (he : errs r = true) :
    insert_data_from_file errs b c key =
      (c, ⟨key, [(r, .storeFailed)], true⟩) := by
  simp [insert_data_from_file, h, insert_one_err errs c r he]

theorem insert_data_from_file_single_dup (errs : Record → Bool) (b : Bucket)
    (c : Collection) (key : String) (r : Record)
    (h : b.fetch key = some (Body.single r)) (he : errs r = false)
    (hd : idOf r ∈ c.ids) :
    insert_data_from_file errs b c key =
      (c, ⟨key, [(r, .dupSkipped ((r.get idField).getD "unknown"))], false⟩) := by
  simp [insert_data_from_file, h, insert_one_dup errs c r he hd]

theorem insert_data_from_file_single_new (errs : Record → Bool) (b : Bucket)
    (c : Collection) (key : String) (r : Record)
    (h : b.fetch key = some (Body.single r)) (he : errs r = false)
    (hd : idOf r ∉ c.ids) :
    insert_data_from_file errs b c key =
      (⟨c.docs ++ [r]⟩, ⟨key, [(r, .inserted)], false⟩) := by
  simp [insert_data_from_file, h, insert_one_new errs c r he hd]

theorem insert_data_from_file_key (errs : Record → Bool) (b : Bucket)
    (c : Collection) (key : String) :
    ((insert_data_from_file errs b c key).2).key = key := by
  unfold insert_data_from_file
  cases hf : b.fetch key with
  | none => rfl
  | some body =>
    cases body with
    | malformed => rfl
    | single r =>
      cases hio : insert_one errs c r with
      | mk c2 res =>
        simp only [hio]
        cases res <;> rfl
    | many rs => rfl

theorem insert_data_from_file_covers (errs : Record → Bool) (b : Bucket)
    (c : Collection) (key : String)
    (hfree : ∀ x ∈ fileRecords b key, errs x = false) :
    ∀ r ∈ fileRecords b key, idOf r ∈ (insert_data_from_file errs b c key).1.ids := by
  intro r hr
  unfold fileRecords at hr hfree
  cases hf : b.fetch key with
  | none => rw [hf] at hr; cases hr
  | some body =>
    cases body with
    | malformed => rw [hf] at hr; cases hr
    | single s =>
      rw [hf] at hr hfree
      rcases List.mem_singleton.mp hr with rfl
      have he : errs r = false := hfree r (List.mem_singleton.mpr rfl)
      by_cases hd : idOf r ∈ c.ids
      · rw [insert_data_from_file_single_dup errs b c key r hf he hd]
        exact hd
      · rw [insert_data_from_file_single_new errs b c key r hf he hd]
        unfold Collection.ids
        simp
    | many rs =>
      rw [hf] at hr hfree
      rw [insert_data_from_file_many errs b c key rs hf]
      exact insertList_covers errs rs c hfree r hr

theorem insert_data_from_file_all_dup (errs : Record → Bool) (b : Bucket)
    (c : Collection) (key : String)
    (hfree : ∀ x ∈ fileRecords b key, errs x = false)
    (hdup : ∀ x ∈ fileRecords b key, idOf x ∈ c.ids) :
    (insert_data_from_file errs b c key).1 = c ∧
    ∀ a ∈ (insert_data_from_file errs b c key).2.attempts,
      ∃ s, a.2 = AttemptResult.dupSkipped s := by
  unfold fileRecords at hfree hdup
  cases hf : b.fetch key with
  | none =>
    rw [insert_data_from_file_none errs b c key hf]
    exact ⟨rfl, by intro a ha; cases ha⟩
  | some body =>
    cases body with
    | malformed =>
      rw [insert_data_from_file_malformed errs b c key hf]
      exact ⟨rfl, by intro a ha; cases ha⟩
    | single s =>
      rw [hf] at hfree hdup
      have he : errs s = false := hfree s (List.mem_singleton.mpr rfl)
      have hd : idOf s ∈ c.ids := hdup s (List.mem_singleton.mpr rfl)
      rw [insert_data_from_file_single_dup errs b c key s hf he hd]
      refine ⟨rfl, ?_⟩
      intro a ha
      rcases List.mem_singleton.mp ha with rfl
      exact ⟨_, rfl⟩
    | many rs =>
      rw [hf] at hfree hdup
      rw [insert_data_from_file_many errs b c key rs hf,
        insertList_all_dup errs rs c hfree hdup]
      refine ⟨rfl, ?_⟩
      intro a ha
      simp only [List.mem_map] at ha
      rcases ha with ⟨x, _, rfl⟩
      exact ⟨_, rfl⟩

/-! ### The file loop -/

theorem processFiles_keys (errs : Record → Bool) (b : Bucket) (ks : List String) :
    ∀ c : Collection, ((processFiles errs b c ks).2).map FileReport.key = ks := by
  induction ks with
  | nil => intro c; rfl
  | cons k ks ih =>
    intro c
    simp [processFiles, insert_data_from_file_key, ih]

theorem processFiles_append (errs : Record → Bool) (b : Bucket)
    (xs ys : List String) : ∀ c : Collection,
    processFiles errs b c (xs ++ ys) =
      ((processFiles errs b (processFiles errs b c xs).1 ys).1,
        (processFiles errs b c xs).2 ++
          (processFiles errs b (processFiles errs b c xs).1 ys).2) := by
  induction xs with
  | nil => intro c; simp [processFiles]
  | cons x xs ih =>
    intro c
    simp [processFiles, ih]

theorem processFiles_covers (b : Bucket) (ks : List String) :
    ∀ c : Collection, ∀ k ∈ ks, ∀ r ∈ fileRecords b k,
    idOf r ∈ (processFiles noErrs b c ks).1.ids := by
  induction ks with
  | nil => intro c k hk; cases hk
  | cons k0 ks ih =>
    intro c k hk r hr
    have hfree : ∀ x ∈ fileRecords b k0, noErrs x = false := fun _ _ => rfl
    rcases List.mem_cons.mp hk with h | h
    · subst h
      have hmem := insert_data_from_file_covers noErrs b c k hfree r hr
      exact ids_mem_of_docs_grow
        (processFiles_docs_grow noErrs b ks (insert_data_from_file noErrs b c k).1) hmem
    · exact ih (insert_data_from_file noErrs b c k0).1 k h r hr

theorem processFiles_all_dup (b : Bucket) (ks : List String) :
    ∀ c : Collection,
    (∀ k ∈ ks, ∀ x ∈ fileRecords b k, idOf x ∈ c.ids) →
    (processFiles noErrs b c ks).1 = c ∧
    ∀ fr ∈ (processFiles noErrs b c ks).2, ∀ a ∈ fr.attempts,
      ∃ s, a.2 = AttemptResult.dupSkipped s := by
  induction ks with
  | nil => intro c _; exact ⟨rfl, by intro fr hfr; cases hfr⟩
  | cons k ks ih =>
    intro c hdup
    have hfree : ∀ x ∈ fileRecords b k, noErrs x = false := fun _ _ => rfl
    have hk := insert_data_from_file_all_dup noErrs b c k hfree
      (hdup k (List.mem_cons_self k ks))
    have hrest := ih (insert_data_from_file noErrs b c k).1
      (by rw [hk.1]; exact fun k' hk' => hdup k' (List.mem_cons_of_mem k hk'))
    constructor
    · show (processFiles noErrs b (insert_data_from_file noErrs b c k).1 ks).1 = c
      rw [hrest.1, hk.1]
    · intro fr hfr a ha
      rcases List.mem_cons.mp hfr with h | h
      · subst h
        exact hk.2 a ha
      · exact hrest.2 fr h a ha

/-! ### The batch loop -/

theorem load_names (errs : Record → Bool) (b : Bucket) (cfg : Config)
    (ns : List String) : ∀ c : Collection,
    ((load_json_files_from_batches errs b cfg c ns).2).map BatchReport.name = ns := by
  induction ns with
  | nil => intro c; rfl
  | cons n ns ih =>
    intro c
    simp [load_json_files_from_batches, processBatch, ih]

theorem load_covers (b : Bucket) (cfg : Config) (ns : List String) :
    ∀ c : Collection, ∀ n ∈ ns, ∀ k ∈ batchFiles b cfg n, ∀ r ∈ fileRecords b k,
    idOf r ∈ (load_json_files_from_batches noErrs b cfg c ns).1.ids := by
  induction ns with
  | nil => intro c n hn; cases hn
  | cons n0 ns ih =>
    intro c n hn k hk r hr
    rcases List.mem_cons.mp hn with h | h
    · subst h
      have hmem := processFiles_covers b (batchFiles b cfg n) c k hk r hr
      exact ids_mem_of_docs_grow
        (load_docs_grow noErrs b cfg ns (processBatch noErrs b cfg c n).1) hmem
    · exact ih (processBatch noErrs b cfg c n0).1 n h k hk r hr

theorem allAttempts_nil : allAttempts [] = [] := rfl

theorem allAttempts_cons (br : BatchReport) (l : List BatchReport) :
    allAttempts (br :: l) =
      (br.files.map (fun fr => fr.attempts)).flatten ++ allAttempts l := by
  simp [allAttempts]

theorem load_all_dup (b : Bucket) (cfg : Config) (ns : List String) :
    ∀ c : Collection,
    (∀ n ∈ ns, ∀ k ∈ batchFiles b cfg n, ∀ x ∈ fileRecords b k, idOf x ∈ c.ids) →
    (load_json_files_from_batches noErrs b cfg c ns).1 = c ∧
    ∀ a ∈ allAttempts (load_json_files_from_batches noErrs b cfg c ns).2,
      ∃ s, a.2 = AttemptResult.dupSkipped s := by
  induction ns with
  | nil => intro c _; exact ⟨rfl, by intro a ha; cases ha⟩
  | cons n ns ih =>
    intro c hdup
    have hn := processFiles_all_dup b (batchFiles b cfg n) c
      (hdup n (List.mem_cons_self n ns))
    have hrest := ih (processBatch noErrs b cfg c n).1
      (by
        show ∀ _, _
        have hstate : (processBatch noErrs b cfg c n).1 = c := hn.1
        rw [hstate]
        exact fun n' hn' => hdup n' (List.mem_cons_of_mem n hn'))
    constructor
    · show (load_json_files_from_batches noErrs b cfg
        (processBatch noErrs b cfg c n).1 ns).1 = c
      rw [hrest.1]
      exact hn.1
    · intro a ha
      rw [show load_json_files_from_batches noErrs b cfg c (n :: ns) =
          ((load_json_files_from_batches noErrs b cfg (processBatch noErrs b cfg c n).1 ns).1,
            (processBatch noErrs b cfg c n).2 ::
              (load_json_files_from_batches noErrs b cfg (processBatch noErrs b cfg c n).1 ns).2)
          from rfl, allAttempts_cons] at ha
      rcases List.mem_append.mp ha with h | h
      · simp only [List.mem_flatten, List.mem_map] at h
        rcases h with ⟨l, ⟨fr, hfr, rfl⟩, hal⟩
        exact hn.2 fr hfr a hal
      · exact hrest.2 a h

/-! ### Claim C1 -/

/-- C1: in the environment where `insert_one` reports `DuplicateKeyError`
exactly when the inserted document's identifier value is already present,
after any sequence of batch ingestions starting from a collection whose
persisted identifier values are pairwise distinct, no two distinct
persisted records share an identifier-field value. -/
theorem C1_persisted_identifiers_pairwise_distinct
    (ings : List (Bucket × Config)) (c : Collection)
    (h : List.Pairwise (fun a b => a ≠ b) c.ids) :
    List.Pairwise (fun a b => a ≠ b) (runSeq ings c).ids :=
  runSeq_ids_nodup ings c h

def c1r1 : Record := ⟨[("cutout_id", "a1"), ("v", "1")]⟩

def c1r2 : Record := ⟨[("cutout_id", "a2")]⟩

def c1b : Bucket := ⟨[("P/b1/f.json", Body.many [c1r1, c1r2, c1r1])]⟩

def c1cfg : Config := ⟨"P", "S", ["b1"]⟩

theorem C1_witness :
    List.Pairwise (fun a b => a ≠ b) (Collection.ids ⟨[]⟩) ∧
    List.Pairwise (fun a b => a ≠ b)
      (runSeq [(c1b, c1cfg), (c1b, c1cfg)] ⟨[]⟩).ids :=
  ⟨by decide,
    C1_persisted_identifiers_pairwise_distinct [(c1b, c1cfg), (c1b, c1cfg)] ⟨[]⟩
      (by decide)⟩

/-! ### Claim C2 -/

/-- C2: ingestion is idempotent: a second run over the same batch list and
unchanged object store, starting from the collection state produced by the
first run, changes the collection not at all (zero net new documents, no
fatal error), and every insert attempt of the second run resolves to the
DuplicateKeyError/Skipped outcome. -/
theorem C2_reingestion_idempotent (b : Bucket) (cfg : Config) (c : Collection)
    (batches : List String) :
    (load_json_files_from_batches noErrs b cfg
        (load_json_files_from_batches noErrs b cfg c batches).1 batches).1 =
      (load_json_files_from_batches noErrs b cfg c batches).1 ∧
    ∀ a ∈ allAttempts (load_json_files_from_batches noErrs b cfg
        (load_json_files_from_batches noErrs b cfg c batches).1 batches).2,
      ∃ s, a.2 = AttemptResult.dupSkipped s := by
  have hcov : ∀ n ∈ batches, ∀ k ∈ batchFiles b cfg n, ∀ x ∈ fileRecords b k,
      idOf x ∈ (load_json_files_from_batches noErrs b cfg c batches).1.ids :=
    fun n hn k hk x hx => load_covers b cfg batches c n hn k hk x hx
  exact load_all_dup b cfg batches _ hcov

def c2r1 : Record := ⟨[("cutout_id", "x1"), ("v", "1")]⟩

def c2r2 : Record := ⟨[("cutout_id", "x2")]⟩

def c2b : Bucket :=
  ⟨[("P/B1/a.json", Body.single c2r1), ("S/B2/b.json", Body.many [c2r2])]⟩

def c2cfg : Config := ⟨"P", "S", ["B1", "B2"]⟩

theorem C2_witness :
    (load_json_files_from_batches noErrs c2b c2cfg
        (load_json_files_from_batches noErrs c2b c2cfg ⟨[]⟩ ["B1", "B2"]).1
        ["B1", "B2"]).1 =
      (load_json_files_from_batches noErrs c2b c2cfg ⟨[]⟩ ["B1", "B2"]).1 :=
  (C2_reingestion_idempotent c2b c2cfg ⟨[]⟩ ["B1", "B2"]).1

/-! ### Claim C3 (corrected) -/

def c3rFail : Record := ⟨[("cutout_id", "f1")]⟩

def c3rSib : Record := ⟨[("cutout_id", "f2")]⟩

def c3errs : Record → Bool := fun r => decide (r = c3rFail)

def c3b : Bucket := ⟨[("P/bx/a.json", Body.many [c3rFail, c3rSib])]⟩

/-- C3 counterexample: with a two-element list-valued object whose first
element raises a non-duplicate store error, the sibling second element's
insert attempt does not take place, refuting the claim that every sibling
element of the same list is still attempted. -/
theorem C3_counterexample :
    (insert_data_from_file c3errs c3b ⟨[]⟩ "P/bx/a.json").2.attempts =
        [(c3rFail, AttemptResult.storeFailed)] ∧
    c3rSib ∉
      ((insert_data_from_file c3errs c3b ⟨[]⟩ "P/bx/a.json").2.attempts).map
        Prod.fst := by
  decide

/-- C3 amended: when `insert_one` raises a non-duplicate store error on one
element of a list-valued object, that element's outcome is Failed, the
elements after it in the same list are not attempted, and every sibling
object of the batch is still processed. -/
theorem C3_failure_isolation_amended (errs : Record → Bool) (b : Bucket)
    (c : Collection) (key : String) (rs rs' : List Record) (r : Record)
    (ks : List String)
    (hf : b.fetch key = some (Body.many (rs ++ r :: rs')))
    (hfree : ∀ x ∈ rs, errs x = false) (hr : errs r = true) :
    (insert_data_from_file errs b c key).2.attempts =
        (insertList errs c rs).2 ++ [(r, AttemptResult.storeFailed)] ∧
    ((insert_data_from_file errs b c key).2.attempts).map Prod.fst = rs ++ [r] ∧
    ((processFiles errs b c (key :: ks)).2).map FileReport.key = key :: ks := by
  have hstop := insertList_stop errs r rs' hr c rs hfree
  refine ⟨?_, ?_, processFiles_keys errs b (key :: ks) c⟩
  · rw [insert_data_from_file_many errs b c key _ hf, hstop]
  · rw [insert_data_from_file_many errs b c key _ hf, hstop]
    simp [insertList_attempt_records errs rs c hfree]

def c3wA : Record := ⟨[("cutout_id", "w1")]⟩

def c3wFail : Record := ⟨[("cutout_id", "w2")]⟩

def c3wC : Record := ⟨[("cutout_id", "w3")]⟩

def c3wD : Record := ⟨[("cutout_id", "w4")]⟩

def c3werrs : Record → Bool := fun r => decide (r = c3wFail)

def c3wb : Bucket :=
  ⟨[("P/bw/a.json", Body.many [c3wA, c3wFail, c3wC]),
    ("P/bw/b.json", Body.single c3wD)]⟩

theorem C3_witness :
    ((insert_data_from_file c3werrs c3wb ⟨[]⟩ "P/bw/a.json").2.attempts).map
        Prod.fst = [c3wA] ++ [c3wFail] :=
  (C3_failure_isolation_amended c3werrs c3wb ⟨[]⟩ "P/bw/a.json" [c3wA] [c3wC]
    c3wFail ["P/bw/b.json"] (by decide) (by decide) (by decide)).2.1

/-! ### Claim C4 -/

/-- C4: batch resolution is a deterministic two-tier fallback: a hit under
the primary root resolves the batch to primary (whatever the secondary
root holds); on a primary miss the secondary root is probed and a hit
resolves to secondary; when both miss the batch yields the notFound
outcome (a logged warning), contributes no files, and the batch loop
still produces one report per batch name in order. -/
theorem C4_two_tier_resolution (errs : Record → Bool) (b : Bucket)
    (cfg : Config) (c : Collection) (name : String) (ns : List String) :
    (s3_folder_exists b (joinPath cfg.primary_s3_root name) = true →
      (processBatch errs b cfg c name).2.resolved = Resolution.primary) ∧
    (s3_folder_exists b (joinPath cfg.primary_s3_root name) = false →
      s3_folder_exists b (joinPath cfg.secondary_s3_root name) = true →
      (processBatch errs b cfg c name).2.resolved = Resolution.secondary) ∧
    (s3_folder_exists b (joinPath cfg.primary_s3_root name) = false →
      s3_folder_exists b (joinPath cfg.secondary_s3_root name) = false →
      processBatch errs b cfg c name = (c, ⟨name, Resolution.notFound, []⟩)) ∧
    ((load_json_files_from_batches errs b cfg c ns).2).map BatchReport.name = ns := by
  refine ⟨?_, ?_, ?_, load_names errs b cfg ns c⟩
  · intro h
    simp [processBatch, resolutionOf, h]
  · intro h1 h2
    simp [processBatch, resolutionOf, h1, h2]
  · intro h1 h2
    simp [processBatch, resolutionOf, batchFiles, h1, h2, processFiles]

def c4b : Bucket :=
  ⟨[("P/alpha/a.json", Body.single ⟨[("cutout_id", "p1")]⟩),
    ("S/beta/b.json", Body.single ⟨[("cutout_id", "s1")]⟩)]⟩

def c4cfg : Config := ⟨"P", "S", ["alpha", "beta", "gamma"]⟩

theorem C4_witness :
    (processBatch noErrs c4b c4cfg ⟨[]⟩ "alpha").2.resolved = Resolution.primary ∧
    (processBatch noErrs c4b c4cfg ⟨[]⟩ "beta").2.resolved = Resolution.secondary ∧
    processBatch noErrs c4b c4cfg ⟨[]⟩ "gamma" =
      (⟨[]⟩, ⟨"gamma", Resolution.notFound, []⟩) ∧
    ((load_json_files_from_batches noErrs c4b c4cfg ⟨[]⟩
        ["alpha", "beta", "gamma"]).2).map BatchReport.name =
      ["alpha", "beta", "gamma"] :=
  ⟨(C4_two_tier_resolution noErrs c4b c4cfg ⟨[]⟩ "alpha" []).1 (by decide),
    (C4_two_tier_resolution noErrs c4b c4cfg ⟨[]⟩ "beta" []).2.1 (by decide)
      (by decide),
    (C4_two_tier_resolution noErrs c4b c4cfg ⟨[]⟩ "gamma" []).2.2.1 (by decide)
      (by decide),
    (C4_two_tier_resolution noErrs c4b c4cfg ⟨[]⟩ "gamma"
      ["alpha", "beta", "gamma"]).2.2.2⟩

/-! ### Claim C5 (corrected) -/

def c5rF : Record := ⟨[("cutout_id", "e1")]⟩

def c5rG : Record := ⟨[("cutout_id", "e2")]⟩

def c5errs : Record → Bool := fun r => decide (r = c5rF)

def c5b : Bucket := ⟨[("P/b5/a.json", Body.many [c5rF, c5rG])]⟩

/-- C5 counterexample: an object decoded as a list of N = 2 mappings on
which the store raises a non-duplicate error at the first element produces
only one insert attempt, refuting the unconditional "exactly N insert
attempts" reading. -/
theorem C5_counterexample :
    ¬ ((insert_data_from_file c5errs c5b ⟨[]⟩ "P/b5/a.json").2.attempts.length = 2) := by
  decide

/-- C5 amended: an object decoded as a single mapping yields exactly one
insert attempt unconditionally; an object decoded as a list of N mappings
yields exactly N insert attempts, one per element in list order, provided
no element's insert raises a non-duplicate store error. -/
theorem C5_expansion_amended (errs : Record → Bool) (b : Bucket)
    (c : Collection) (key : String) (r : Record) (rs : List Record) :
    (b.fetch key = some (Body.many rs) → (∀ x ∈ rs, errs x = false) →
      ((insert_data_from_file errs b c key).2.attempts).map Prod.fst = rs) ∧
    (b.fetch key = some (Body.single r) →
      ((insert_data_from_file errs b c key).2.attempts).map Prod.fst = [r]) := by
  constructor
  · intro hf hfree
    rw [insert_data_from_file_many errs b c key rs hf]
    exact insertList_attempt_records errs rs c hfree
  · intro hf
    cases he : errs r with
    | true =>
      rw [insert_data_from_file_single_err errs b c key r hf he]
      rfl
    | false =>
      by_cases hd : idOf r ∈ c.ids
      · rw [insert_data_from_file_single_dup errs b c key r hf he hd]
        rfl
      · rw [insert_data_from_file_single_new errs b c key r hf he hd]
        rfl

def c5u1 : Record := ⟨[("cutout_id", "u1")]⟩

def c5u2 : Record := ⟨[("cutout_id", "u2")]⟩

def c5u3 : Record := ⟨[("cutout_id", "u3")]⟩

def c5wb : Bucket :=
  ⟨[("P/w5/m.json", Body.many [c5u1, c5u2]),
    ("P/w5/s.json", Body.single c5u3)]⟩

theorem C5_witness :
    ((insert_data_from_file noErrs c5wb ⟨[]⟩ "P/w5/m.json").2.attempts).map
        Prod.fst = [c5u1, c5u2] ∧
    ((insert_data_from_file noErrs c5wb ⟨[]⟩ "P/w5/s.json").2.attempts).map
        Prod.fst = [c5u3] :=
  ⟨(C5_expansion_amended noErrs c5wb ⟨[]⟩ "P/w5/m.json" c5u3 [c5u1, c5u2]).1
      (by decide) (by decide),
    (C5_expansion_amended noErrs c5wb ⟨[]⟩ "P/w5/s.json" c5u3 [c5u1, c5u2]).2
      (by decide)⟩

/-! ### Claim C6 -/

/-- C6: a record whose insert raises `DuplicateKeyError` gets the Skipped
outcome carrying the record's identifier value (or the placeholder
"unknown" when the field is absent), the collection is unchanged, no
exception propagates, and the remaining records of the list and the
remaining objects of the batch are still processed. -/
theorem C6_duplicate_skip (errs : Record → Bool) (c : Collection) (r : Record)
    (rs : List Record) (b : Bucket) (key : String) (ks : List String)
    (he : errs r = false) (hd : idOf r ∈ c.ids) :
    insertList errs c (r :: rs) =
      ((insertList errs c rs).1,
        (r, AttemptResult.dupSkipped ((r.get idField).getD "unknown")) ::
          (insertList errs c rs).2) ∧
    (b.fetch key = some (Body.single r) →
      insert_data_from_file errs b c key =
        (c, ⟨key, [(r, AttemptResult.dupSkipped ((r.get idField).getD "unknown"))],
          false⟩)) ∧
    ((processFiles errs b c (key :: ks)).2).map FileReport.key = key :: ks :=
  ⟨insertList_cons_dup errs c r rs he hd,
    fun hf => insert_data_from_file_single_dup errs b c key r hf he hd,
    processFiles_keys errs b (key :: ks) c⟩

def c6r : Record := ⟨[("cutout_id", "d1")]⟩

def c6noid : Record := ⟨[("v", "9")]⟩

def c6c : Collection := ⟨[c6r]⟩

def c6c2 : Collection := ⟨[c6noid]⟩

def c6b : Bucket := ⟨[("P/b6/a.json", Body.single c6r)]⟩

theorem C6_witness :
    insertList noErrs c6c [c6r] = (c6c, [(c6r, AttemptResult.dupSkipped "d1")]) ∧
    insertList noErrs c6c2 [c6noid] =
      (c6c2, [(c6noid, AttemptResult.dupSkipped "unknown")]) := by
  have h1 := (C6_duplicate_skip noErrs c6c c6r [] c6b "P/b6/a.json" [] rfl
    (by decide)).1
  have h2 := (C6_duplicate_skip noErrs c6c2 c6noid [] c6b "P/b6/a.json" [] rfl
    (by decide)).1
  refine ⟨?_, ?_⟩
  · rw [h1]; decide
  · rw [h2]; decide

/-! ### Claim C7 -/

/-- C7: decode failure is object-scoped and atomic: an object whose bytes
fail to decode contributes zero records and its error is absorbed at the
object scope with a report, the final collection is the same as if the
malformed object were absent from the batch, the run reports exactly one
more object-scope failure than that baseline, and every sibling object is
still processed. -/
theorem C7_decode_failure_isolated (errs : Record → Bool) (b : Bucket)
    (c : Collection) (key : String) (pre post : List String)
    (hf : b.fetch key = some Body.malformed) :
    insert_data_from_file errs b c key = (c, ⟨key, [], true⟩) ∧
    (processFiles errs b c (pre ++ key :: post)).1 =
      (processFiles errs b c (pre ++ post)).1 ∧
    ((processFiles errs b c (pre ++ key :: post)).2).countP
        (fun fr => fr.fileError) =
      ((processFiles errs b c (pre ++ post)).2).countP (fun fr => fr.fileError)
        + 1 ∧
    ((processFiles errs b c (pre ++ key :: post)).2).map FileReport.key =
      pre ++ key :: post := by
  have hstep : ∀ c1 : Collection, processFiles errs b c1 (key :: post) =
      ((processFiles errs b c1 post).1,
        (⟨key, [], true⟩ : FileReport) :: (processFiles errs b c1 post).2) := by
    intro c1
    simp [processFiles, insert_data_from_file_malformed errs b c1 key hf]
  refine ⟨insert_data_from_file_malformed errs b c key hf, ?_, ?_,
    processFiles_keys errs b (pre ++ key :: post) c⟩
  · rw [processFiles_append errs b pre (key :: post) c,
      processFiles_append errs b pre post c, hstep]
  · rw [processFiles_append errs b pre (key :: post) c,
      processFiles_append errs b pre post c, hstep]
    simp [List.countP_append, List.countP_cons]
    omega

def c7g1 : Record := ⟨[("cutout_id", "g1")]⟩

def c7g2 : Record := ⟨[("cutout_id", "g2")]⟩

def c7g3 : Record := ⟨[("cutout_id", "g3")]⟩

def c7b : Bucket :=
  ⟨[("P/c7/good1.json", Body.single c7g1),
    ("P/c7/bad.json", Body.malformed),
    ("P/c7/good2.json", Body.many [c7g2, c7g3])]⟩

theorem C7_witness :
    (processFiles noErrs c7b ⟨[]⟩
        (["P/c7/good1.json"] ++ "P/c7/bad.json" :: ["P/c7/good2.json"])).1 =
      (processFiles noErrs c7b ⟨[]⟩
        (["P/c7/good1.json"] ++ ["P/c7/good2.json"])).1 ∧
    ((processFiles noErrs c7b ⟨[]⟩
        (["P/c7/good1.json"] ++ "P/c7/bad.json" :: ["P/c7/good2.json"])).2).countP
        (fun fr => fr.fileError) =
      ((processFiles noErrs c7b ⟨[]⟩
        (["P/c7/good1.json"] ++ ["P/c7/good2.json"])).2).countP
        (fun fr => fr.fileError) + 1 :=
  ⟨(C7_decode_failure_isolated noErrs c7b ⟨[]⟩ "P/c7/bad.json"
      ["P/c7/good1.json"] ["P/c7/good2.json"] (by decide)).2.1,
    (C7_decode_failure_isolated noErrs c7b ⟨[]⟩ "P/c7/bad.json"
      ["P/c7/good1.json"] ["P/c7/good2.json"] (by decide)).2.2.1⟩

/-! ### Claim C8 (corrected) -/

def c8rs : Record := ⟨[("cutout_id", "s")]⟩

def c8rl : Record := ⟨[("cutout_id", "l")]⟩

def c8b : Bucket :=
  ⟨[("P/abc/x.json", Body.single c8rs), ("P/abcdef/y.json", Body.single c8rl)]⟩

def c8cfg : Config := ⟨"P", "S", ["abc"]⟩

/-- C8 counterexample: with batches "abc" and "abcdef" both present under
the primary root, ingesting the shorter batch "abc" enumerates and ingests
the object `P/abcdef/y.json` that belongs only to the longer-named batch,
refuting the claim that prefix handling prevents this. -/
theorem C8_counterexample :
    "P/abcdef/y.json" ∈ batchFiles c8b c8cfg "abc" ∧
    c8rl ∈ (load_json_files_from_batches noErrs c8b c8cfg ⟨[]⟩ ["abc"]).1.docs := by
  decide

/-- C8 amended: only the existence probe normalizes with a trailing
separator, so resolution cannot false-positive on a batch name that is a
strict prefix of another (a batch with no objects under `root/name/`
never resolves even when a longer-named batch matches the raw prefix);
but enumeration of a resolved batch uses the un-normalized prefix, so
every JSON key matching the raw prefix — including keys of a
longer-named batch — is enumerated and ingested. -/
theorem C8_normalization_amended :
    (∀ (b : Bucket) (dir : String), strEnds "/" dir = false →
      s3_folder_exists b dir = b.keys.any (fun k => strStarts (dir ++ "/") k)) ∧
    (∀ (b : Bucket) (dir : String), strEnds "/" dir = false →
      (∀ k ∈ b.keys, strStarts (dir ++ "/") k = false) →
      s3_folder_exists b dir = false) ∧
    (∀ (b : Bucket) (dir k : String), k ∈ b.keys →
      strStarts dir k = true → strEnds ".json" k = true → k ∈ listJson b dir) ∧
    (∀ (errs : Record → Bool) (b : Bucket) (cfg : Config) (c : Collection)
      (name : String),
      s3_folder_exists b (joinPath cfg.primary_s3_root name) = true →
      ((processBatch errs b cfg c name).2.files).map FileReport.key =
        listJson b (joinPath cfg.primary_s3_root name)) := by
  refine ⟨?_, ?_, ?_, ?_⟩
  · intro b dir h
    simp [s3_folder_exists, h]
  · intro b dir h hall
    simp only [s3_folder_exists, h, Bool.false_eq_true, if_false]
    rw [List.any_eq_false]
    intro k hk
    rw [hall k hk]
    simp
  · intro b dir k hk h1 h2
    simp [listJson, List.mem_filter, hk, h1, h2]
  · intro errs b cfg c name h
    simp [processBatch, batchFiles, h, processFiles_keys]

def c8wr : Record := ⟨[("cutout_id", "wl")]⟩

def c8wb : Bucket := ⟨[("P/abcdef/y.json", Body.single c8wr)]⟩

theorem C8_witness :
    s3_folder_exists c8wb "P/abc" = false ∧
    "P/abcdef/y.json" ∈ listJson c8wb "P/abc" :=
  ⟨C8_normalization_amended.2.1 c8wb "P/abc" (by decide) (by decide),
    C8_normalization_amended.2.2.1 c8wb "P/abc" "P/abcdef/y.json" (by decide)
      (by decide) (by decide)⟩

/-! ### Claim C9 -/

/-- C9: the unique-index creation event happens exactly once and is the
first event of every run, strictly before any batch resolution or insert
attempt; and when index creation fails the process terminates fatally
with no batch resolved and no insert attempted. -/
theorem C9_index_initialization_first (indexOk : Bool) (errs : Record → Bool)
    (b : Bucket) (cfg : Config) (c : Collection) :
    index_value "cutouts" = "cutout_id" ∧
    (mainTrace indexOk errs b cfg c).head? =
      some (Ev.createIndex (index_value "cutouts")) ∧
    (mainTrace indexOk errs b cfg c).countP isCreateIndexEv = 1 ∧
    (indexOk = false →
      mainRun indexOk errs b cfg c = RunResult.fatal ∧
      mainTrace indexOk errs b cfg c = [Ev.createIndex (index_value "cutouts")]) := by
  refine ⟨rfl, rfl, ?_, ?_⟩
  · unfold mainTrace
    rw [List.countP_cons]
    have htail : ((if indexOk then
        ((load_json_files_from_batches errs b cfg c cfg.batches).2.map
          batchEvents).flatten else [])).countP isCreateIndexEv = 0 := by
      rw [List.countP_eq_zero]
      intro e he
      cases indexOk with
      | false => cases he
      | true =>
        simp only [if_true] at he
        rw [List.mem_flatten] at he
        rcases he with ⟨l, hl, hel⟩
        rw [List.mem_map] at hl
        rcases hl with ⟨br, _, rfl⟩
        unfold batchEvents at hel
        rcases List.mem_cons.mp hel with rfl | hel
        · simp [isCreateIndexEv]
        · rw [List.mem_map] at hel
          rcases hel with ⟨a, _, rfl⟩
          simp [isCreateIndexEv]
    rw [htail]
    simp [isCreateIndexEv]
  · intro h
    subst h
    exact ⟨rfl, rfl⟩

def c9b : Bucket := ⟨[("P/z/a.json", Body.single ⟨[("cutout_id", "z1")]⟩)]⟩

def c9cfg : Config := ⟨"P", "S", ["z"]⟩

theorem C9_witness :
    mainRun false noErrs c9b c9cfg ⟨[]⟩ = RunResult.fatal ∧
    mainTrace false noErrs c9b c9cfg ⟨[]⟩ = [Ev.createIndex "cutout_id"] :=
  (C9_index_initialization_first false noErrs c9b c9cfg ⟨[]⟩).2.2.2 rfl

/-! ### Claim C10 -/

/-- C10: when insertion of an element of a list-valued object raises a
non-duplicate store error, ingestion of that object stops there: the
final collection for the object is exactly the state reached after the
elements before the failing one (those already inserted remain, nothing
is rolled back), the elements after it are never attempted, and the file
loop continues with the next object. -/
theorem C10_store_error_stops_object (errs : Record → Bool) (b : Bucket)
    (c : Collection) (key : String) (rs rs' : List Record) (r : Record)
    (ks : List String)
    (hf : b.fetch key = some (Body.many (rs ++ r :: rs')))
    (hfree : ∀ x ∈ rs, errs x = false) (hr : errs r = true) :
    (insert_data_from_file errs b c key).1 = (insertList errs c rs).1 ∧
    c.docs <+: (insert_data_from_file errs b c key).1.docs ∧
    ((insert_data_from_file errs b c key).2.attempts).map Prod.fst = rs ++ [r] ∧
    processFiles errs b c (key :: ks) =
      ((processFiles errs b (insert_data_from_file errs b c key).1 ks).1,
        (insert_data_from_file errs b c key).2 ::
          (processFiles errs b (insert_data_from_file errs b c key).1 ks).2) := by
  have hstop := insertList_stop errs r rs' hr c rs hfree
  refine ⟨?_, insert_data_from_file_docs_grow errs b c key, ?_, rfl⟩
  · rw [insert_data_from_file_many errs b c key _ hf, hstop]
  · rw [insert_data_from_file_many errs b c key _ hf, hstop]
    simp [insertList_attempt_records errs rs c hfree]

def c10v1 : Record := ⟨[("cutout_id", "v1")]⟩

def c10vF : Record := ⟨[("cutout_id", "vF")]⟩

def c10v3 : Record := ⟨[("cutout_id", "v3")]⟩

def c10v4 : Record := ⟨[("cutout_id", "v4")]⟩

def c10errs : Record → Bool := fun r => decide (r = c10vF)

def c10b : Bucket :=
  ⟨[("P/cx/a.json", Body.many [c10v1, c10vF, c10v3]),
    ("P/cx/b.json", Body.single c10v4)]⟩

theorem C10_witness :
    (insert_data_from_file c10errs c10b ⟨[]⟩ "P/cx/a.json").1 =
      (insertList c10errs ⟨[]⟩ [c10v1]).1 :=
  (C10_store_error_stops_object c10errs c10b ⟨[]⟩ "P/cx/a.json" [c10v1] [c10v3]
    c10vF ["P/cx/b.json"] (by decide) (by decide) (by decide)).1

end JsonToMongo
